import Mathlib

/-!
Verification of the withdrawal/webhook relay service (src/server.js).

The development shallowly embeds the custom logic of the service:
the fuzzy beneficiary-name matcher, the /lookup and /withdraw request
handlers, the global in-flight-withdrawal counter, and the webhook
signature check with its ledger mutation.  External collaborators
(the payment gateway and the document store) are modelled as explicit
inputs: a fetch outcome is an `Except` value carrying the HTTP status
and the parsed JSON body, and the document store is a concrete record
threaded through the webhook handler.  JavaScript numbers appearing in
monetary arithmetic are embedded as rationals; machine floating point
is not needed at any claim instance.
-/

namespace Server

/-! ## Name normalizer and matcher (function fuzzyNameMatch, server.js lines 237 to 250) -/

/-- Characters kept by the regex replace: the class [a-z0-9 ]. -/
def isKeptChar (c : Char) : Bool :=
  (decide ('a' ≤ c) && decide (c ≤ 'z')) ||
  (decide ('0' ≤ c) && decide (c ≤ '9')) ||
  decide (c = ' ')

/-- Collapses every run of spaces to a single space, as replace of the
whitespace-run regex with one space does on a string whose only whitespace
character is the plain space (all others were stripped by the previous
replace). -/
def collapseSpaces : List Char → List Char
  | [] => []
  | c :: cs =>
    match collapseSpaces cs with
    | [] => [c]
    | d :: ds => if c = ' ' ∧ d = ' ' then d :: ds else c :: d :: ds

/-- Removes leading and trailing spaces, as String.prototype.trim does after
the earlier replaces left only plain spaces. -/
def trimSpaces (l : List Char) : List Char :=
  ((l.dropWhile (fun c => c == ' ')).reverse.dropWhile (fun c => c == ' ')).reverse

/-- Embedding of the normalize closure: lower case, strip every character
outside [a-z0-9 ], collapse whitespace runs, trim. -/
def normalize (s : String) : String :=
  String.mk (trimSpaces (collapseSpaces ((s.data.map Char.toLower).filter isKeptChar)))

/-- Embedding of String.prototype.split with separator a single space:
returns the (possibly empty) chunks between spaces; on the empty string it
returns one empty chunk, exactly as in JavaScript. -/
def splitOnSpace : List Char → List (List Char)
  | [] => [[]]
  | c :: cs =>
    match splitOnSpace cs with
    | [] => [[c]]
    | t :: ts => if c = ' ' then [] :: t :: ts else (c :: t) :: ts

/-- Token list of a name: normalize, then split on spaces. -/
def wordsOf (s : String) : List String :=
  (splitOnSpace (normalize s).data).map String.mk

/-- Lexicographic comparison of char lists by code point, the order the
default JavaScript Array.prototype.sort comparator induces on strings. -/
def charListLeb : List Char → List Char → Bool
  | [], _ => true
  | _ :: _, [] => false
  | c :: cs, d :: ds =>
    if c.toNat < d.toNat then true
    else if d.toNat < c.toNat then false
    else charListLeb cs ds

/-- String comparison used while sorting token lists. -/
def strLeb (a b : String) : Bool := charListLeb a.data b.data

/-- Insertion step of the sort. -/
def insertSorted (x : String) : List String → List String
  | [] => [x]
  | y :: ys => if strLeb x y then x :: y :: ys else y :: insertSorted x ys

/-- Embedding of Array.prototype.sort on a list of strings (the algorithm
differs, the resulting sorted sequence does not). -/
def sortStrings : List String → List String
  | [] => []
  | x :: xs => insertSorted x (sortStrings xs)

/-- Sorted token list, as words1 and words2 in the source. -/
def sortedWordsOf (s : String) : List String := sortStrings (wordsOf s)

/-- The list the source names shorter: the token list with strictly fewer
tokens, and on a tie the tokens of the second argument. -/
def shorterOf (a b : String) : List String :=
  if (sortedWordsOf a).length < (sortedWordsOf b).length then sortedWordsOf a
  else sortedWordsOf b

/-- The list the source names longer: the complement choice of shorterOf. -/
def longerOf (a b : String) : List String :=
  if (sortedWordsOf b).length ≤ (sortedWordsOf a).length then sortedWordsOf a
  else sortedWordsOf b

/-- The matches counter: how many tokens of the shorter list occur in the
longer list (each occurrence in the shorter list counted). -/
def matchCount (a b : String) : ℕ :=
  (shorterOf a b).countP (fun w => (longerOf a b).contains w)

/-- Embedding of fuzzyNameMatch: true iff matches divided by the length of
the shorter list is at least 0.66. -/
def fuzzyNameMatch (a b : String) : Bool :=
  decide ((0.66 : ℚ) ≤ (matchCount a b : ℚ) / ((shorterOf a b).length : ℚ))

/-- Token list with the role assignment described by the specification text
of claim C1: the strictly-fewer-tokens list, on a tie the second argument. -/
def specShorterTokens (a b : String) : List String :=
  if (wordsOf a).length < (wordsOf b).length then wordsOf a else wordsOf b

/-- The other token list of the specification text of claim C1. -/
def specLongerTokens (a b : String) : List String :=
  if (wordsOf a).length < (wordsOf b).length then wordsOf b else wordsOf a

/-- Matcher as worded by claim C1 (no sorting step; membership anywhere in
the longer list; ratio at least 0.66). -/
def specNameMatch (a b : String) : Bool :=
  decide ((0.66 : ℚ) ≤
    ((specShorterTokens a b).countP (fun w => decide (w ∈ specLongerTokens a b)) : ℚ) /
      ((specShorterTokens a b).length : ℚ))

/-! ## Request and response shapes of the /lookup and /withdraw handlers -/

/-- JSON scalar, as the status field of the transfer response can hold a
string or a number. -/
inductive JScalar where
  | jstr (s : String)
  | jnum (n : Int)
deriving DecidableEq

/-- Body of a /withdraw request.  Fields absent from the JSON body are
none; the amount is a JSON number, embedded as a rational. -/
structure WithdrawReq where
  amount : Option ℚ
  accountNumber : Option String
  bankCode : Option String
  beneficiaryName : Option String

/-- Embedding of the JavaScript or-default idiom on an optional string
field, msg || dflt: the default is taken when the field is absent or holds
the empty string (falsy), otherwise the field value. -/
def jsOrStr (m : Option String) (dflt : String) : String :=
  match m with
  | none => dflt
  | some s => if s = "" then dflt else s

/-- JavaScript truthiness of a JSON number field (JSON cannot encode NaN,
so a present number is falsy exactly when it is zero). -/
def truthyNum : Option ℚ → Bool
  | none => false
  | some q => decide (q ≠ 0)

/-- JavaScript truthiness of a JSON string field. -/
def truthyStr : Option String → Bool
  | none => false
  | some s => decide (s ≠ "")

/-- The validation test of the /withdraw handler: the negation of
bang-amount or bang-accountNumber or bang-bankCode or bang-beneficiaryName. -/
def validationPasses (req : WithdrawReq) : Bool :=
  truthyNum req.amount && truthyStr req.accountNumber &&
    truthyStr req.bankCode && truthyStr req.beneficiaryName

/-- Parsed body of the account lookup response.  The handlers read only
these two fields. -/
structure LookupJson where
  account_name : Option String
  message : Option String
deriving DecidableEq

/-- Parsed body of the transfer response. -/
structure TransferJson where
  status : Option JScalar
  reference : Option String
  message : Option String
deriving DecidableEq

/-- Outcome of one fetch call followed by response.json(): a network error
or a thrown body parse is the error case; otherwise the HTTP status code
(which the handlers never read for the lookup call) and the parsed body. -/
def FetchResult (β : Type) := Except Unit (Nat × β)

/-- JSON response sent by a handler: HTTP status plus the fields the
handlers put in their response objects. -/
structure HttpResp where
  status : Nat
  success : Bool
  message : Option String
  ref : Option String
  accountName : Option String
deriving DecidableEq

/-- Embedding of Math.round: floor of the argument plus one half, which is
the JavaScript round-half-up rule (ties go toward positive infinity). -/
def jsRound (q : ℚ) : Int := ⌊q + 1/2⌋

/-- Body of the transfer request the /withdraw handler submits to the
gateway. -/
structure TransferBody where
  amount : Int
  account_number : String
  bank_code : String
  beneficiary_name : String
  currency : String
  narration : String
  reference : String
deriving DecidableEq

/-- Observable outcome of one /withdraw invocation: the response together
with whether the lookup fetch was issued and, when the transfer fetch was
issued, the body it carried. -/
structure WOut where
  resp : HttpResp
  lookupCalled : Bool
  transferReq : Option TransferBody
deriving DecidableEq

/-- Embedding of the /withdraw handler (server.js lines 286 to 339).  The
gateway is a collaborator, so the outcomes of its two calls are inputs;
nowMs stands for Date.now at reference-generation time. -/
def withdrawHandler (req : WithdrawReq) (lookupRes : FetchResult LookupJson)
    (transferRes : FetchResult TransferJson) (nowMs : Nat) : WOut :=
  if validationPasses req then
    match lookupRes with
    | .error _ => ⟨⟨500, false, some "Server error, try again", none, none⟩, true, none⟩
    | .ok (_, lj) =>
      if fuzzyNameMatch (lj.account_name.getD "") (req.beneficiaryName.getD "") then
        let body : TransferBody :=
          ⟨jsRound ((req.amount.getD 0) * 100), req.accountNumber.getD "",
            req.bankCode.getD "", req.beneficiaryName.getD "", "NGN",
            "Earnings Withdrawal", "wd_" ++ toString nowMs⟩
        match transferRes with
        | .error _ =>
          ⟨⟨500, false, some "Server error, try again", none, none⟩, true, some body⟩
        | .ok (_, tj) =>
          if tj.status = some (.jstr "SUCCESS") ∨ tj.status = some (.jnum 200) then
            ⟨⟨200, true, some "Withdrawal successful!", tj.reference, none⟩, true, some body⟩
          else
            ⟨⟨400, false, some (jsOrStr tj.message "Transfer failed"), none, none⟩, true, some body⟩
      else
        ⟨⟨400, false, some "Name mismatch—check spelling or try a variation", none, none⟩,
          true, none⟩
  else
    ⟨⟨400, false, some "Fill all fields", none, none⟩, false, none⟩

/-- Embedding of the /lookup handler (server.js lines 254 to 284): response
paired with whether the gateway fetch was issued. -/
def lookupHandler (accountNumber bankCode : Option String)
    (lookupRes : FetchResult LookupJson) : HttpResp × Bool :=
  if truthyStr accountNumber && truthyStr bankCode then
    match lookupRes with
    | .error _ => (⟨500, false, some "Server error during lookup", none, none⟩, true)
    | .ok (_, lj) =>
      if truthyStr lj.account_name then
        (⟨200, true, none, none, lj.account_name⟩, true)
      else
        (⟨400, false, some (jsOrStr lj.message "Invalid account details"), none, none⟩, true)
  else
    (⟨400, false, some "Need account number and bank", none, none⟩, false)

/-! ## Concurrency gate (concurrentLimiter, server.js lines 216 to 225) -/

/-- Ceiling on simultaneously processed withdrawals. -/
def MAX_CONCURRENT_WITHDRAWS : ℕ := 2

/-- Admission test of concurrentLimiter: a request is turned away with the
server-busy response exactly when the counter has reached the ceiling. -/
def canProcessWithdraw (n : ℕ) : Bool := decide (n < MAX_CONCURRENT_WITHDRAWS)

/-- Events observed by the shared counter: a request arriving at the
limiter, and a response finishing (which fires the finish listener whether
the request ended in success, business rejection, or error). -/
inductive WdEvent where
  | arrive
  | finish

/-- One transition of the counter: an admitted arrival increments it, a
rejected arrival leaves it unchanged, a finish decrements it. -/
def concStep (n : ℕ) : WdEvent → ℕ
  | .arrive => if canProcessWithdraw n then n + 1 else n
  | .finish => n - 1

/-- Counter value after a sequence of events, starting from the initial
value zero of processingWithdraws. -/
def concRun (tr : List WdEvent) : ℕ := tr.foldl concStep 0

/-! ## JSON values, serialization and parsing

The webhook route receives a raw byte body which express.json parses into
req.body; the handler then re-serializes req.body with JSON.stringify and
feeds that string to the HMAC.  Both directions are embedded: a JSON value
type, the serializer, and a recursive-descent parser (strings are modelled
without escape sequences, numbers as integers; the claim instances need no
more). -/

inductive Json where
  | jnull
  | jbool (b : Bool)
  | jnum (n : Int)
  | jstr (s : String)
  | jarr (elems : List Json)
  | jobj (fields : List (String × Json))

mutual
/-- Embedding of JSON.stringify: no whitespace, object keys in insertion
order, integers in decimal. -/
def jsonStringify : Json → String
  | .jnull => "null"
  | .jbool true => "true"
  | .jbool false => "false"
  | .jnum n => toString n
  | .jstr s => "\"" ++ s ++ "\""
  | .jarr xs => "[" ++ stringifyItems xs ++ "]"
  | .jobj fs => "\x7b" ++ stringifyFields fs ++ "\x7d"

/-- Comma-separated serialization of array elements. -/
def stringifyItems : List Json → String
  | [] => ""
  | [x] => jsonStringify x
  | x :: y :: rest => jsonStringify x ++ "," ++ stringifyItems (y :: rest)

/-- Comma-separated serialization of object fields. -/
def stringifyFields : List (String × Json) → String
  | [] => ""
  | [(k, v)] => "\"" ++ k ++ "\":" ++ jsonStringify v
  | (k, v) :: f :: rest =>
    "\"" ++ k ++ "\":" ++ jsonStringify v ++ "," ++ stringifyFields (f :: rest)
end

/-- JSON whitespace characters. -/
def isWsChar (c : Char) : Bool := c == ' ' || c == '\t' || c == '\n' || c == '\r'

/-- Skips JSON whitespace. -/
def skipWs (cs : List Char) : List Char := cs.dropWhile isWsChar

/-- Decimal digit test. -/
def isDigitChar (c : Char) : Bool := decide ('0' ≤ c) && decide (c ≤ '9')

/-- Value of a list of decimal digits. -/
def digitsToNat (l : List Char) : Nat := l.foldl (fun a c => a * 10 + (c.toNat - 48)) 0

/-- Reads a string literal body after its opening quote, up to the closing
quote. -/
def parseStringLit (cs : List Char) : Option (String × List Char) :=
  let body := cs.takeWhile (fun c => c != '"')
  match cs.drop body.length with
  | '"' :: rest => some (String.mk body, rest)
  | _ => none

mutual
/-- Fueled recursive-descent JSON value reader. -/
def parseVal : Nat → List Char → Option (Json × List Char)
  | 0, _ => none
  | fuel + 1, cs0 =>
    match skipWs cs0 with
    | 'n' :: 'u' :: 'l' :: 'l' :: rest => some (.jnull, rest)
    | 't' :: 'r' :: 'u' :: 'e' :: rest => some (.jbool true, rest)
    | 'f' :: 'a' :: 'l' :: 's' :: 'e' :: rest => some (.jbool false, rest)
    | '"' :: rest => (parseStringLit rest).map (fun p => (.jstr p.1, p.2))
    | '[' :: rest =>
      (match skipWs rest with
       | ']' :: r2 => some (.jarr [], r2)
       | r1 => (parseItems fuel r1).map (fun p => (.jarr p.1, p.2)))
    | '\x7b' :: rest =>
      (match skipWs rest with
       | '\x7d' :: r2 => some (.jobj [], r2)
       | r1 => (parseFields fuel r1).map (fun p => (.jobj p.1, p.2)))
    | '-' :: rest =>
      let ds := rest.takeWhile isDigitChar
      if ds.isEmpty then none
      else some (.jnum (-(digitsToNat ds : Int)), rest.drop ds.length)
    | c :: rest =>
      if isDigitChar c then
        let ds := (c :: rest).takeWhile isDigitChar
        some (.jnum (digitsToNat ds : Int), (c :: rest).drop ds.length)
      else none
    | [] => none

/-- Fueled reader of the elements of a nonempty array. -/
def parseItems : Nat → List Char → Option (List Json × List Char)
  | 0, _ => none
  | fuel + 1, cs =>
    match parseVal fuel cs with
    | none => none
    | some (v, r) =>
      match skipWs r with
      | ',' :: r2 =>
        (match parseItems fuel r2 with
         | none => none
         | some (xs, r3) => some (v :: xs, r3))
      | ']' :: r2 => some ([v], r2)
      | _ => none

/-- Fueled reader of the fields of a nonempty object. -/
def parseFields : Nat → List Char → Option (List (String × Json) × List Char)
  | 0, _ => none
  | fuel + 1, cs =>
    match cs with
    | '"' :: rest =>
      (match parseStringLit rest with
       | none => none
       | some (k, r) =>
         match skipWs r with
         | ':' :: r2 =>
           (match parseVal fuel r2 with
            | none => none
            | some (v, r3) =>
              match skipWs r3 with
              | ',' :: r5 =>
                (match parseFields fuel (skipWs r5) with
                 | none => none
                 | some (fs, r7) => some ((k, v) :: fs, r7))
              | '\x7d' :: r5 => some ([(k, v)], r5)
              | _ => none)
         | _ => none)
    | _ => none
end

/-- Embedding of JSON.parse as invoked by express.json on the raw request
body: the whole input must be consumed. -/
def jsonParse (s : String) : Option Json :=
  match parseVal (2 * s.length + 2) s.data with
  | some (j, rest) => if (skipWs rest).isEmpty then some j else none
  | none => none

/-- Property read on a JSON object (none on absence or on a non-object). -/
def jGet (j : Json) (k : String) : Option Json :=
  match j with
  | .jobj fs => fs.lookup k
  | _ => none

/-- String content of a JSON value. -/
def jStrVal : Json → Option String
  | .jstr s => some s
  | _ => none

/-- Integer content of a JSON value. -/
def jNumVal : Json → Option Int
  | .jnum n => some n
  | _ => none

/-- The event_type field of a webhook event, when it is a string. -/
def eventTypeOf (e : Json) : Option String := (jGet e "event_type").bind jStrVal

/-- The data.email field of a webhook event, when present as a string. -/
def eventEmail (e : Json) : Option String :=
  (jGet e "data").bind (fun d => (jGet d "email").bind jStrVal)

/-- The data.amount field of a webhook event, when present as a number. -/
def eventAmount (e : Json) : Option Int :=
  (jGet e "data").bind (fun d => (jGet d "amount").bind jNumVal)

/-- HMAC input the webhook route derives from a raw request body: express
parses the body, the handler re-serializes the parsed value. -/
def webhookHmacMessage (raw : String) : Option String :=
  (jsonParse raw).map jsonStringify

/-! ## Document store and webhook handler (server.js lines 343 to 413) -/

/-- Entry appended to a referrer referral list. -/
structure RefEntry where
  refUid : String
  name : String
  earn : ℚ
deriving DecidableEq

/-- User document of the ledger store.  The uid is the document id. -/
structure UserDoc where
  uid : String
  email : String
  name : String
  paid : Bool
  balance : ℚ
  referrerUid : Option String
  referrals : List RefEntry
deriving DecidableEq

/-- Payment document appended per processed successful transaction. -/
structure PaymentDoc where
  userUid : String
  amount : ℚ
  timestamp : Nat
  adminShare : ℚ
deriving DecidableEq

/-- The document store: the users collection (in document order) and the
payments collection. -/
structure Db where
  users : List UserDoc
  payments : List PaymentDoc
deriving DecidableEq

/-- Embedding of the users query where email equals the given value with
limit one: the first matching document. -/
def findUserByEmail (db : Db) (email : String) : Option UserDoc :=
  db.users.find? (fun u => u.email == email)

/-- Embedding of reading the user document with the given id. -/
def getDoc (db : Db) (uid : String) : Option UserDoc :=
  db.users.find? (fun u => u.uid == uid)

/-- Embedding of an update on the user document with the given id. -/
def updateDoc (db : Db) (uid : String) (f : UserDoc → UserDoc) : Db :=
  ⟨db.users.map (fun u => if u.uid == uid then f u else u), db.payments⟩

/-- Embedding of FieldValue.arrayUnion with one element: appended only when
no equal element is already present. -/
def arrayUnion (l : List RefEntry) (e : RefEntry) : List RefEntry :=
  if e ∈ l then l else l ++ [e]

/-- Observable outcome of one webhook invocation: HTTP status, response
body text, the document store afterwards, and whether any store access
happened. -/
structure WebhookOut where
  status : Nat
  body : String
  db : Db
  dbAccessed : Bool
deriving DecidableEq

/-- Ledger mutation for a verified transaction.successful event: mark the
user paid, append a payment record, and credit the referrer when one is
set.  A malformed data section is collapsed to the catch-path 500 response
of the source. -/
def processSuccessEvent (event : Json) (db : Db) (now : Nat) : WebhookOut :=
  match eventEmail event, eventAmount event with
  | some email, some amt =>
    (match findUserByEmail db email with
     | none => ⟨200, "Webhook received but no user found", db, true⟩
     | some u =>
       let db1 := updateDoc db u.uid (fun x => { x with paid := true })
       let db2 : Db :=
         ⟨db1.users, db1.payments ++ [⟨u.uid, (amt : ℚ) / 100, now, ((amt : ℚ) / 100) / 2⟩]⟩
       match u.referrerUid with
       | none => ⟨200, "Webhook received", db2, true⟩
       | some rid =>
         match getDoc db2 rid with
         | none => ⟨500, "Server error processing webhook", db2, true⟩
         | some refU =>
           let earn : ℚ := ((amt : ℚ) / 100) / 2
           let entry : RefEntry := ⟨u.uid, u.name, earn⟩
           let db3 := updateDoc db2 rid
             (fun x => { x with balance := refU.balance + earn,
                                referrals := arrayUnion x.referrals entry })
           ⟨200, "Webhook received", db3, true⟩)
  | _, _ => ⟨500, "Server error processing webhook", db, false⟩

/-- Embedding of the /squad-webhook handler.  The HMAC-SHA512 hex digest is
a collaborator function hmacHex of the secret and the message; the handler
feeds it the JSON.stringify image of the parsed event and compares the
digest with the signature header.  Only a transaction.successful event type
reaches the store. -/
def squadWebhookHandler (secret : Option String) (hmacHex : String → String → String)
    (sigHeader : Option String) (event : Json) (db : Db) (now : Nat) : WebhookOut :=
  match secret with
  | none => ⟨500, "Server config error", db, false⟩
  | some sec =>
    if sigHeader = some (hmacHex sec (jsonStringify event)) then
      match eventTypeOf event with
      | some t =>
        if t = "transaction.successful" then processSuccessEvent event db now
        else ⟨200, "Webhook received", db, false⟩
      | none => ⟨200, "Webhook received", db, false⟩
    else ⟨400, "Invalid signature", db, false⟩

/-! ## Concrete webhook scenario fixtures -/

/-- Sample successful-transaction event: ten thousand minor units paid by
the referred user. -/
def sampleEvent : Json :=
  .jobj [("event_type", .jstr "transaction.successful"),
    ("data", .jobj [("email", .jstr "a@b.c"), ("amount", .jnum 10000)])]

/-- Referred sample user, pointing at referrer document r1. -/
def sampleUser : UserDoc := ⟨"u1", "a@b.c", "U Name", false, 0, some "r1", []⟩

/-- Sample referrer with an empty referral list. -/
def sampleReferrerFresh : UserDoc := ⟨"r1", "r@b.c", "R Name", false, 100, none, []⟩

/-- Sample referrer already holding the exact entry the sample event earns. -/
def sampleReferrerDup : UserDoc :=
  ⟨"r1", "r@b.c", "R Name", false, 100, none, [⟨"u1", "U Name", 50⟩]⟩

/-- Store holding the sample user and the fresh referrer. -/
def sampleDbFresh : Db := ⟨[sampleUser, sampleReferrerFresh], []⟩

/-- Store holding the sample user and the referrer with the duplicate entry. -/
def sampleDbDup : Db := ⟨[sampleUser, sampleReferrerDup], []⟩

/-! ## Lemmas about the matcher -/

theorem insertSorted_perm (x : String) (l : List String) :
    List.Perm (insertSorted x l) (x :: l) := by
  induction l with
  | nil => rfl
  | cons y ys ih =>
    simp only [insertSorted]
    split
    · exact List.Perm.refl _
    · exact (List.Perm.cons y ih).trans (List.Perm.swap x y ys)

theorem sortStrings_perm (l : List String) : List.Perm (sortStrings l) l := by
  induction l with
  | nil => rfl
  | cons x xs ih => exact (insertSorted_perm x (sortStrings xs)).trans (List.Perm.cons x ih)

theorem length_sortStrings (l : List String) : (sortStrings l).length = l.length :=
  (sortStrings_perm l).length_eq

theorem mem_sortStrings (a : String) (l : List String) : a ∈ sortStrings l ↔ a ∈ l :=
  (sortStrings_perm l).mem_iff

theorem length_sortedWordsOf (s : String) : (sortedWordsOf s).length = (wordsOf s).length :=
  length_sortStrings _

theorem splitOnSpace_length_pos (l : List Char) : 0 < (splitOnSpace l).length := by
  cases l with
  | nil => simp [splitOnSpace]
  | cons c cs =>
    simp only [splitOnSpace]
    cases splitOnSpace cs with
    | nil => simp
    | cons t ts => by_cases h : c = ' ' <;> simp [h]

theorem wordsOf_length_pos (s : String) : 0 < (wordsOf s).length := by
  simpa [wordsOf] using splitOnSpace_length_pos (normalize s).data

theorem shorterOf_length_pos (a b : String) : 0 < (shorterOf a b).length := by
  unfold shorterOf
  split <;> simp [length_sortedWordsOf, wordsOf_length_pos]

theorem specShorterTokens_length_pos (a b : String) : 0 < (specShorterTokens a b).length := by
  unfold specShorterTokens
  split <;> simp [wordsOf_length_pos]

theorem ratio_ge_iff (m n : ℕ) (hn : 0 < n) :
    ((0.66 : ℚ) ≤ (m : ℚ) / (n : ℚ)) ↔ 66 * n ≤ 100 * m := by
  rw [le_div_iff₀ (by exact_mod_cast hn)]
  rw [show (0.66 : ℚ) = 33 / 50 by norm_num]
  rw [div_mul_eq_mul_div, div_le_iff₀ (by norm_num : (0 : ℚ) < 50)]
  constructor
  · intro h
    have h2 : 33 * n ≤ m * 50 := by exact_mod_cast h
    omega
  · intro h
    have h2 : 33 * n ≤ m * 50 := by omega
    exact_mod_cast h2

theorem fuzzyNameMatch_eq_decide (a b : String) :
    fuzzyNameMatch a b =
      decide (66 * (shorterOf a b).length ≤ 100 * matchCount a b) := by
  unfold fuzzyNameMatch
  exact decide_eq_decide.mpr (ratio_ge_iff _ _ (shorterOf_length_pos a b))

theorem specNameMatch_eq_decide (a b : String) :
    specNameMatch a b =
      decide (66 * (specShorterTokens a b).length ≤
        100 * (specShorterTokens a b).countP (fun w => decide (w ∈ specLongerTokens a b))) := by
  unfold specNameMatch
  exact decide_eq_decide.mpr (ratio_ge_iff _ _ (specShorterTokens_length_pos a b))

theorem shorterOf_eq_sort_spec (a b : String) :
    shorterOf a b = sortStrings (specShorterTokens a b) := by
  unfold shorterOf specShorterTokens sortedWordsOf
  simp only [length_sortStrings]
  split <;> rfl

theorem longerOf_eq_sort_spec (a b : String) :
    longerOf a b = sortStrings (specLongerTokens a b) := by
  unfold longerOf specLongerTokens sortedWordsOf
  simp only [length_sortStrings]
  rcases Nat.lt_or_ge (wordsOf a).length (wordsOf b).length with h | h
  · rw [if_neg (by omega), if_pos h]
  · rw [if_pos h, if_neg (by omega)]

theorem matchCount_eq_spec (a b : String) :
    matchCount a b =
      (specShorterTokens a b).countP (fun w => decide (w ∈ specLongerTokens a b)) := by
  unfold matchCount
  rw [shorterOf_eq_sort_spec, longerOf_eq_sort_spec]
  rw [(sortStrings_perm (specShorterTokens a b)).countP_eq]
  apply List.countP_congr
  intro x _
  simp [List.elem_eq_mem, mem_sortStrings]

theorem fuzzy_eq_specMatch (a b : String) : fuzzyNameMatch a b = specNameMatch a b := by
  rw [fuzzyNameMatch_eq_decide, specNameMatch_eq_decide]
  rw [matchCount_eq_spec, shorterOf_eq_sort_spec, length_sortStrings]

/-- Claim C1: fuzzyNameMatch returns true exactly when, after normalizing
both names and splitting on spaces, the share of tokens of the shorter
token list (on a tie, the second argument list) found anywhere in the
longer list is at least 0.66; and the two concrete examples of the
specification hold. -/
theorem claim1_fuzzy_match_rule :
    (∀ a b : String, fuzzyNameMatch a b = specNameMatch a b) ∧
    fuzzyNameMatch "Ade Abuka Joy" "Ade Joy" = true ∧
    fuzzyNameMatch "John Smith" "Jane Doe" = false := by
  refine ⟨fuzzy_eq_specMatch, ?_, ?_⟩
  · rw [fuzzyNameMatch_eq_decide]
    decide
  · rw [fuzzyNameMatch_eq_decide]
    decide

theorem specShorterTokens_of_lt {a b : String}
    (h : (wordsOf a).length < (wordsOf b).length) : specShorterTokens a b = wordsOf a := by
  unfold specShorterTokens; exact if_pos h

theorem specShorterTokens_of_ge {a b : String}
    (h : ¬ (wordsOf a).length < (wordsOf b).length) : specShorterTokens a b = wordsOf b := by
  unfold specShorterTokens; exact if_neg h

theorem specLongerTokens_of_lt {a b : String}
    (h : (wordsOf a).length < (wordsOf b).length) : specLongerTokens a b = wordsOf b := by
  unfold specLongerTokens; exact if_pos h

theorem specLongerTokens_of_ge {a b : String}
    (h : ¬ (wordsOf a).length < (wordsOf b).length) : specLongerTokens a b = wordsOf a := by
  unfold specLongerTokens; exact if_neg h

theorem countP_mem_comm (A B : List String) (hA : A.Nodup) (hB : B.Nodup) :
    A.countP (fun w => decide (w ∈ B)) = B.countP (fun w => decide (w ∈ A)) := by
  rw [List.countP_eq_length_filter, List.countP_eq_length_filter]
  have h1 : (A.filter (fun w => decide (w ∈ B))).Nodup := hA.filter _
  have h2 : (B.filter (fun w => decide (w ∈ A))).Nodup := hB.filter _
  rw [← List.toFinset_card_of_nodup h1, ← List.toFinset_card_of_nodup h2]
  rw [List.toFinset_filter, List.toFinset_filter]
  have e1 : A.toFinset.filter (fun x => decide (x ∈ B) = true) = A.toFinset ∩ B.toFinset := by
    ext x
    simp [List.mem_toFinset]
  have e2 : B.toFinset.filter (fun x => decide (x ∈ A) = true) = B.toFinset ∩ A.toFinset := by
    ext x
    simp [List.mem_toFinset]
  rw [e1, e2, Finset.inter_comm]

/-- Counterexample to claim C4 as stated: the matcher is not symmetric on a
token-count tie when one list repeats a token.  The name pair of two words
x x against x y matches in one argument order and not in the other. -/
theorem claim4_counterexample :
    fuzzyNameMatch "x x" "x y" ≠ fuzzyNameMatch "x y" "x x" := by
  rw [fuzzyNameMatch_eq_decide, fuzzyNameMatch_eq_decide]
  decide

/-- Claim C4 as amended: fuzzyNameMatch is symmetric whenever the two
normalized token lists differ in length, and also on a length tie whenever
both token lists are free of duplicate tokens; symmetry can fail only on a
tie with a duplicated token. -/
theorem claim4_symmetry_amended (a b : String)
    (h : (wordsOf a).length ≠ (wordsOf b).length ∨
      ((wordsOf a).Nodup ∧ (wordsOf b).Nodup)) :
    fuzzyNameMatch a b = fuzzyNameMatch b a := by
  rw [fuzzy_eq_specMatch, fuzzy_eq_specMatch]
  rcases Nat.lt_trichotomy (wordsOf a).length (wordsOf b).length with hlt | heq | hgt
  · unfold specNameMatch
    rw [specShorterTokens_of_lt hlt, specLongerTokens_of_lt hlt,
      specShorterTokens_of_ge (by omega), specLongerTokens_of_ge (by omega)]
  · rcases h with hne | ⟨ha, hb⟩
    · exact absurd heq hne
    · unfold specNameMatch
      rw [specShorterTokens_of_ge (by omega), specLongerTokens_of_ge (by omega),
        specShorterTokens_of_ge (by omega), specLongerTokens_of_ge (by omega)]
      rw [countP_mem_comm (wordsOf b) (wordsOf a) hb ha, heq]
  · unfold specNameMatch
    rw [specShorterTokens_of_ge (by omega), specLongerTokens_of_ge (by omega),
      specShorterTokens_of_lt hgt, specLongerTokens_of_lt hgt]

/-- Witness for the amended claim C4 at a concrete pair with token lists of
different lengths. -/
theorem claim4_symmetry_amended_witness :
    fuzzyNameMatch "Ade Abuka Joy" "Ade Joy" = fuzzyNameMatch "Ade Joy" "Ade Abuka Joy" :=
  claim4_symmetry_amended "Ade Abuka Joy" "Ade Joy" (Or.inl (by decide))

theorem wordsOf_of_normalize_empty {s : String} (h : normalize s = "") :
    wordsOf s = [""] := by
  unfold wordsOf
  rw [h]
  decide

theorem sortedWordsOf_of_normalize_empty {s : String} (h : normalize s = "") :
    sortedWordsOf s = [""] := by
  unfold sortedWordsOf
  rw [wordsOf_of_normalize_empty h]
  decide

theorem empty_normalize_match (a b : String) (ha : normalize a = "")
    (hb : normalize b = "") : fuzzyNameMatch a b = true := by
  rw [fuzzyNameMatch_eq_decide]
  unfold matchCount shorterOf longerOf
  rw [sortedWordsOf_of_normalize_empty ha, sortedWordsOf_of_normalize_empty hb]
  decide

/-- Claim C10: the shorter token list always holds at least one (possibly
empty) token, so the ratio test never divides by zero; every pair of names
that both normalize to the empty string matches; in the /withdraw handler,
whenever the lookup result has no account name and the beneficiary name
normalizes to the empty string, the transfer call is issued; and the
concrete punctuation-only pair matches. -/
theorem claim10_empty_token_match :
    (∀ a b : String, 0 < (shorterOf a b).length) ∧
    (∀ a b : String, normalize a = "" → normalize b = "" → fuzzyNameMatch a b = true) ∧
    (∀ (req : WithdrawReq) (st : Nat) (lj : LookupJson) (tr : FetchResult TransferJson)
        (now : Nat),
      validationPasses req = true →
      lj.account_name = none →
      normalize (req.beneficiaryName.getD "") = "" →
      (withdrawHandler req (.ok (st, lj)) tr now).transferReq.isSome = true) ∧
    fuzzyNameMatch "!!!" "???" = true := by
  refine ⟨shorterOf_length_pos, empty_normalize_match, ?_, ?_⟩
  · intro req st lj tr now hv hname hnorm
    have hfm : fuzzyNameMatch (lj.account_name.getD "") (req.beneficiaryName.getD "")
        = true := by
      rw [hname]
      exact empty_normalize_match _ _ rfl hnorm
    cases tr with
    | error e => simp [withdrawHandler, hv, hfm]
    | ok p =>
      obtain ⟨st2, tj⟩ := p
      by_cases hs : tj.status = some (.jstr "SUCCESS") ∨ tj.status = some (.jnum 200) <;>
        simp [withdrawHandler, hv, hfm, hs]
  · rw [fuzzyNameMatch_eq_decide]
    decide

/-- Witness for claim C10: the punctuation-only pair matches, and the
concrete withdrawal with a punctuation-only beneficiary and a lookup
result lacking an account name issues the transfer. -/
theorem claim10_empty_token_match_witness :
    fuzzyNameMatch "!!!" "???" = true ∧
    (withdrawHandler ⟨some 1, some "0123456789", some "058", some "!!!"⟩
        (.ok (200, ⟨none, none⟩)) (.ok (200, ⟨some (.jstr "SUCCESS"), some "ref1", none⟩))
        0).transferReq.isSome = true :=
  ⟨claim10_empty_token_match.2.1 "!!!" "???" (by decide) (by decide),
    claim10_empty_token_match.2.2.1 ⟨some 1, some "0123456789", some "058", some "!!!"⟩
      200 ⟨none, none⟩ (.ok (200, ⟨some (.jstr "SUCCESS"), some "ref1", none⟩)) 0
      (by simp [validationPasses, truthyNum, truthyStr]) rfl (by decide)⟩

/-! ## Lemmas about the concurrency gate -/

theorem foldl_concStep_le (tr : List WdEvent) :
    ∀ n, n ≤ MAX_CONCURRENT_WITHDRAWS → tr.foldl concStep n ≤ MAX_CONCURRENT_WITHDRAWS := by
  induction tr with
  | nil => intro n h; simpa using h
  | cons e es ih =>
    intro n h
    simp only [List.foldl_cons]
    apply ih
    cases e with
    | arrive =>
      simp only [concStep, canProcessWithdraw]
      by_cases hn : n < MAX_CONCURRENT_WITHDRAWS
      · rw [if_pos (by simpa using hn)]
        omega
      · rw [if_neg (by simpa using hn)]
        exact h
    | finish =>
      simp only [concStep]
      omega

/-- Claim C7: starting from zero, the in-flight counter never exceeds the
ceiling of two; an arrival at the ceiling is rejected and leaves the
counter unchanged; an admitted arrival increments it; a finishing response
always decrements it; and after a finish from any admissible state a new
arrival is admitted again. -/
theorem claim7_concurrency_gate :
    (∀ tr : List WdEvent, concRun tr ≤ MAX_CONCURRENT_WITHDRAWS) ∧
    (∀ n : ℕ, MAX_CONCURRENT_WITHDRAWS ≤ n →
      canProcessWithdraw n = false ∧ concStep n .arrive = n) ∧
    (∀ n : ℕ, canProcessWithdraw n = true → concStep n .arrive = n + 1) ∧
    (∀ n : ℕ, concStep n .finish = n - 1) ∧
    (∀ n : ℕ, 0 < n → n ≤ MAX_CONCURRENT_WITHDRAWS →
      canProcessWithdraw (concStep n .finish) = true) := by
  refine ⟨fun tr => foldl_concStep_le tr 0 (by simp), ?_, ?_, fun n => rfl, ?_⟩
  · intro n hn
    have hadm : canProcessWithdraw n = false := by
      simp only [canProcessWithdraw, decide_eq_false_iff_not]
      omega
    exact ⟨hadm, by simp [concStep, hadm]⟩
  · intro n hn
    simp [concStep, hn]
  · intro n h0 h2
    simp only [concStep, canProcessWithdraw, decide_eq_true_eq]
    unfold MAX_CONCURRENT_WITHDRAWS at *
    omega

/-- Witness for claim C7 at concrete inputs: a third simultaneous arrival
is rejected at counter two, and one finish readmits. -/
theorem claim7_concurrency_gate_witness :
    concRun [.arrive, .arrive, .arrive] ≤ MAX_CONCURRENT_WITHDRAWS ∧
    (canProcessWithdraw 2 = false ∧ concStep 2 .arrive = 2) ∧
    concStep 1 .arrive = 2 ∧
    concStep 2 .finish = 1 ∧
    canProcessWithdraw (concStep 2 .finish) = true :=
  ⟨claim7_concurrency_gate.1 [.arrive, .arrive, .arrive],
    claim7_concurrency_gate.2.1 2 (by decide),
    claim7_concurrency_gate.2.2.1 1 (by decide),
    claim7_concurrency_gate.2.2.2.1 2,
    claim7_concurrency_gate.2.2.2.2 2 (by decide) (by decide)⟩

/-! ## Claims about the /withdraw and /lookup handlers -/

/-- Claim C2: when the resolved account name (empty string when absent)
fails the fuzzy match against the supplied beneficiary name, the /withdraw
handler answers with the 400 name-mismatch rejection and no transfer call;
and a transfer request is only ever submitted when the fuzzy match holds. -/
theorem claim2_mismatch_blocks_transfer :
    (∀ (req : WithdrawReq) (st : Nat) (lj : LookupJson) (tr : FetchResult TransferJson)
        (now : Nat),
      validationPasses req = true →
      fuzzyNameMatch (lj.account_name.getD "") (req.beneficiaryName.getD "") = false →
      withdrawHandler req (.ok (st, lj)) tr now =
        ⟨⟨400, false, some "Name mismatch—check spelling or try a variation", none, none⟩,
          true, none⟩) ∧
    (∀ (req : WithdrawReq) (lr : FetchResult LookupJson) (tr : FetchResult TransferJson)
        (now : Nat),
      (withdrawHandler req lr tr now).transferReq.isSome = true →
      ∃ st lj, lr = .ok (st, lj) ∧
        fuzzyNameMatch (lj.account_name.getD "") (req.beneficiaryName.getD "") = true) := by
  constructor
  · intro req st lj tr now hv hfm
    simp [withdrawHandler, hv, hfm]
  · intro req lr tr now h
    by_cases hv : validationPasses req
    · cases lr with
      | error e => simp [withdrawHandler, hv] at h
      | ok p =>
        obtain ⟨st, lj⟩ := p
        by_cases hf : fuzzyNameMatch (lj.account_name.getD "") (req.beneficiaryName.getD "")
        · exact ⟨st, lj, rfl, hf⟩
        · rw [Bool.not_eq_true] at hf
          simp [withdrawHandler, hv, hf] at h
    · rw [Bool.not_eq_true] at hv
      simp [withdrawHandler, hv] at h

/-- Witness for claim C2 at a concrete mismatching pair. -/
theorem claim2_mismatch_blocks_transfer_witness :
    withdrawHandler ⟨some 1, some "0123456789", some "058", some "Jane Doe"⟩
        (.ok (200, ⟨some "John Smith", none⟩)) (.error ()) 0 =
      ⟨⟨400, false, some "Name mismatch—check spelling or try a variation", none, none⟩,
        true, none⟩ :=
  claim2_mismatch_blocks_transfer.1 _ 200 _ _ 0
    (by simp [validationPasses, truthyNum, truthyStr])
    (by rw [fuzzyNameMatch_eq_decide]; decide)

/-- Counterexample to claim C5 as stated: a negative amount is present and
truthy, so it passes the validation of the /withdraw handler; the gateway
lookup is issued and the withdrawal even completes. -/
theorem claim5_counterexample :
    (withdrawHandler ⟨some (-5), some "0123456789", some "058", some "John Doe"⟩
        (.ok (200, ⟨some "John Doe", none⟩))
        (.ok (200, ⟨some (.jstr "SUCCESS"), some "r1", none⟩)) 0).resp.status = 200 ∧
    (withdrawHandler ⟨some (-5), some "0123456789", some "058", some "John Doe"⟩
        (.ok (200, ⟨some "John Doe", none⟩))
        (.ok (200, ⟨some (.jstr "SUCCESS"), some "r1", none⟩)) 0).lookupCalled = true := by
  have h1 : truthyNum (some (-5 : ℚ)) = true := by
    unfold truthyNum
    norm_num
  have hval : validationPasses ⟨some (-5), some "0123456789", some "058", some "John Doe"⟩
      = true := by
    simp [validationPasses, h1, truthyStr]
  have hfm : fuzzyNameMatch "John Doe" "John Doe" = true := by
    rw [fuzzyNameMatch_eq_decide]
    decide
  constructor <;> simp [withdrawHandler, hval, hfm]

/-- Claim C5 as amended: a request with any of the four fields absent, any
of the three string fields empty, or a zero amount is answered with the 400
fill-all-fields rejection and neither gateway call is made; the amount test
is plain truthiness, so every nonzero amount (negative ones included)
passes it. -/
theorem claim5_validation_amended :
    (∀ (req : WithdrawReq) (lr : FetchResult LookupJson) (tr : FetchResult TransferJson)
        (now : Nat),
      (req.amount = none ∨ req.amount = some 0 ∨ req.accountNumber = none ∨
        req.accountNumber = some "" ∨ req.bankCode = none ∨ req.bankCode = some "" ∨
        req.beneficiaryName = none ∨ req.beneficiaryName = some "") →
      withdrawHandler req lr tr now =
        ⟨⟨400, false, some "Fill all fields", none, none⟩, false, none⟩) ∧
    (∀ q : ℚ, q ≠ 0 → truthyNum (some q) = true) := by
  constructor
  · intro req lr tr now h
    have hv : validationPasses req = false := by
      rcases h with h | h | h | h | h | h | h | h <;>
        simp [validationPasses, truthyNum, truthyStr, h]
    simp [withdrawHandler, hv]
  · intro q hq
    simp [truthyNum, hq]

/-- Witness for the amended claim C5: an absent amount is rejected without
any gateway call, and the negative amount minus five is truthy. -/
theorem claim5_validation_amended_witness :
    withdrawHandler ⟨none, some "0123456789", some "058", some "John Doe"⟩
        (.error ()) (.error ()) 0 =
      ⟨⟨400, false, some "Fill all fields", none, none⟩, false, none⟩ ∧
    truthyNum (some (-5 : ℚ)) = true :=
  ⟨claim5_validation_amended.1 _ _ _ _ (Or.inl rfl),
    claim5_validation_amended.2 (-5) (by norm_num)⟩

/-- Counterexample to claim C6 as stated: on a non-2xx lookup response
(HTTP 404 with a message body and no account name) the /lookup handler
answers 400 and passes the upstream message through, instead of the
claimed generic 500 upstream error. -/
theorem claim6_counterexample :
    (lookupHandler (some "0123456789") (some "058")
        (.ok (404, ⟨none, some "invalid details from upstream"⟩))).1.status = 400 ∧
    (lookupHandler (some "0123456789") (some "058")
        (.ok (404, ⟨none, some "invalid details from upstream"⟩))).1.message =
      some "invalid details from upstream" := by
  constructor <;> decide

/-- Claim C6 as amended: only a thrown fetch or body parse (network-level
failure) produces the generic 500 upstream error, in /lookup and in the
lookup step of /withdraw; the handlers never read the HTTP status of the
lookup response, so a non-2xx gateway reply is handled through its parsed
body: /lookup answers 400 carrying the upstream message when no account
name is present, and /withdraw proceeds into the name check, a 400
business rejection, rather than a 500. -/
theorem claim6_upstream_error_amended :
    (∀ acct bank : Option String,
      (truthyStr acct && truthyStr bank) = true →
      lookupHandler acct bank (.error ()) =
        (⟨500, false, some "Server error during lookup", none, none⟩, true)) ∧
    (∀ (req : WithdrawReq) (tr : FetchResult TransferJson) (now : Nat),
      validationPasses req = true →
      withdrawHandler req (.error ()) tr now =
        ⟨⟨500, false, some "Server error, try again", none, none⟩, true, none⟩) ∧
    (∀ (acct bank : Option String) (st : Nat) (lj : LookupJson),
      (truthyStr acct && truthyStr bank) = true →
      truthyStr lj.account_name = false →
      lookupHandler acct bank (.ok (st, lj)) =
        (⟨400, false, some (jsOrStr lj.message "Invalid account details"), none, none⟩, true)) ∧
    (∀ (req : WithdrawReq) (st : Nat) (lj : LookupJson) (tr : FetchResult TransferJson)
        (now : Nat),
      validationPasses req = true →
      fuzzyNameMatch (lj.account_name.getD "") (req.beneficiaryName.getD "") = false →
      (withdrawHandler req (.ok (st, lj)) tr now).resp.status = 400) := by
  refine ⟨?_, ?_, ?_, ?_⟩
  · intro acct bank h
    simp [lookupHandler, h]
  · intro req tr now hv
    simp [withdrawHandler, hv]
  · intro acct bank st lj h hn
    simp [lookupHandler, h, hn]
  · intro req st lj tr now hv hfm
    simp [withdrawHandler, hv, hfm]

/-- Witness for the amended claim C6 at concrete inputs. -/
theorem claim6_upstream_error_amended_witness :
    lookupHandler (some "0123456789") (some "058") (.error ()) =
      (⟨500, false, some "Server error during lookup", none, none⟩, true) ∧
    withdrawHandler ⟨some 1, some "0123456789", some "058", some "John Doe"⟩
        (.error ()) (.error ()) 0 =
      ⟨⟨500, false, some "Server error, try again", none, none⟩, true, none⟩ ∧
    lookupHandler (some "0123456789") (some "058") (.ok (503, ⟨none, none⟩)) =
      (⟨400, false, some "Invalid account details", none, none⟩, true) :=
  ⟨claim6_upstream_error_amended.1 _ _ (by decide),
    claim6_upstream_error_amended.2.1 _ _ 0
      (by simp [validationPasses, truthyNum, truthyStr]),
    claim6_upstream_error_amended.2.2.1 _ _ 503 ⟨none, none⟩ (by decide) (by decide)⟩

/-- Claim C9: every transfer request submitted by the /withdraw handler
carries the amount multiplied by one hundred and rounded (floor of the
value plus one half, the JavaScript Math.round rule); that integer is
always a nearest integer to the scaled amount; and the two concrete
conversions of the specification hold. -/
theorem claim9_minor_unit_conversion :
    (∀ (req : WithdrawReq) (lr : FetchResult LookupJson) (tr : FetchResult TransferJson)
        (now : Nat) (body : TransferBody),
      (withdrawHandler req lr tr now).transferReq = some body →
      body.amount = jsRound ((req.amount.getD 0) * 100)) ∧
    (∀ q : ℚ, |(jsRound q : ℚ) - q| ≤ 1 / 2) ∧
    jsRound ((150.5 : ℚ) * 100) = 15050 ∧
    jsRound ((150.004 : ℚ) * 100) = 15000 := by
  refine ⟨?_, ?_, ?_, ?_⟩
  · intro req lr tr now body h
    by_cases hv : validationPasses req
    · cases lr with
      | error e => simp [withdrawHandler, hv] at h
      | ok p =>
        obtain ⟨st, lj⟩ := p
        by_cases hf : fuzzyNameMatch (lj.account_name.getD "") (req.beneficiaryName.getD "")
        · cases tr with
          | error e =>
            simp [withdrawHandler, hv, hf] at h
            rw [← h]
          | ok p2 =>
            obtain ⟨st2, tj⟩ := p2
            by_cases hs : tj.status = some (.jstr "SUCCESS") ∨ tj.status = some (.jnum 200)
            · simp [withdrawHandler, hv, hf, hs] at h
              rw [← h]
            · simp [withdrawHandler, hv, hf, hs] at h
              rw [← h]
        · rw [Bool.not_eq_true] at hf
          simp [withdrawHandler, hv, hf] at h
    · rw [Bool.not_eq_true] at hv
      simp [withdrawHandler, hv] at h
  · intro q
    unfold jsRound
    rw [abs_le]
    constructor
    · have h := Int.lt_floor_add_one (q + 1 / 2)
      push_cast at h ⊢
      linarith
    · have h := Int.floor_le (q + 1 / 2)
      push_cast at h ⊢
      linarith
  · norm_num [jsRound, Int.floor_eq_iff]
  · norm_num [jsRound, Int.floor_eq_iff]

/-- Witness for claim C9: the concrete transfer body sent for a withdrawal
of one hundred fifty naira and a half carries the rounded minor units. -/
theorem claim9_minor_unit_conversion_witness :
    (⟨jsRound ((150.5 : ℚ) * 100), "0123456789", "058", "John Doe", "NGN",
        "Earnings Withdrawal", "wd_0"⟩ : TransferBody).amount =
      jsRound (((some (150.5 : ℚ)).getD 0) * 100) :=
  claim9_minor_unit_conversion.1
    ⟨some 150.5, some "0123456789", some "058", some "John Doe"⟩
    (.ok (200, ⟨some "John Doe", none⟩)) (.error ()) 0 _
    (by
      have hval : validationPasses
          ⟨some 150.5, some "0123456789", some "058", some "John Doe"⟩ = true := by
        have h1 : truthyNum (some (150.5 : ℚ)) = true := by
          unfold truthyNum
          norm_num
        simp [validationPasses, h1, truthyStr]
      have hfm : fuzzyNameMatch "John Doe" "John Doe" = true := by
        rw [fuzzyNameMatch_eq_decide]
        decide
      simp [withdrawHandler, hval, hfm]
      decide)

/-! ## Claims about the webhook handler -/

/-- Counterexample to claim C3 as stated: the handler does not feed the raw
received bytes to the HMAC.  For the raw body with a space after the colon,
the message actually hashed is the re-serialization of the parsed body,
which differs from the raw bytes. -/
theorem claim3_counterexample :
    webhookHmacMessage "\x7b\"a\": 1\x7d" = some "\x7b\"a\":1\x7d" ∧
    "\x7b\"a\":1\x7d" ≠ "\x7b\"a\": 1\x7d" := by
  constructor
  · rfl
  · decide

/-- Claim C3 as amended: the webhook handler computes the HMAC-SHA512 hex
digest of the JSON.stringify re-serialization of the parsed request body
(not of the raw received bytes), compares that digest with the signature
header, and on any mismatch answers 400 invalid-signature with the store
untouched and never accessed. -/
theorem claim3_signature_check_amended :
    (∀ (sec : String) (hmacHex : String → String → String) (sig : Option String)
        (event : Json) (db : Db) (now : Nat),
      sig ≠ some (hmacHex sec (jsonStringify event)) →
      squadWebhookHandler (some sec) hmacHex sig event db now =
        ⟨400, "Invalid signature", db, false⟩) ∧
    (∀ raw : String, webhookHmacMessage raw = (jsonParse raw).map jsonStringify) := by
  constructor
  · intro sec hmacHex sig event db now h
    simp [squadWebhookHandler, h]
  · intro raw
    rfl

/-- Witness for the amended claim C3 at a concrete mismatching signature. -/
theorem claim3_signature_check_amended_witness :
    squadWebhookHandler (some "K") (fun _ _ => "S") (some "T") .jnull ⟨[], []⟩ 0 =
      ⟨400, "Invalid signature", ⟨[], []⟩, false⟩ :=
  claim3_signature_check_amended.1 "K" (fun _ _ => "S") (some "T") .jnull ⟨[], []⟩ 0
    (by decide)

/-! ## Lemmas about document updates -/

theorem find?_uid_map_update (l : List UserDoc) (x y : String) (f : UserDoc → UserDoc)
    (hf : ∀ u, (f u).uid = u.uid) :
    (l.map (fun u => if u.uid == x then f u else u)).find? (fun u => u.uid == y) =
      if y = x then (l.find? (fun u => u.uid == y)).map f
      else l.find? (fun u => u.uid == y) := by
  induction l with
  | nil => by_cases h : y = x <;> simp [h]
  | cons u us ih =>
    by_cases hux : u.uid = x
    · have hgu : (if u.uid == x then f u else u) = f u := if_pos (by simpa using hux)
      by_cases hyx : y = x
      · have hpu : (u.uid == y) = true := by simp [hux, hyx]
        have hpf : ((f u).uid == y) = true := by simp [hf u, hux, hyx]
        simp only [List.map_cons, List.find?_cons]
        rw [hgu]
        simp only [hpf, hpu, if_pos hyx]
        rfl
      · have hpu : (u.uid == y) = false :=
          beq_eq_false_iff_ne.mpr (by rw [hux]; exact fun h => hyx h.symm)
        have hpf : ((f u).uid == y) = false := by rw [hf u]; exact hpu
        simp only [List.map_cons, List.find?_cons]
        rw [hgu]
        simp only [hpf, hpu]
        rw [ih, if_neg hyx]
    · have hgu : (if u.uid == x then f u else u) = u := if_neg (by simpa using hux)
      by_cases hpy : u.uid = y
      · have hpu : (u.uid == y) = true := by simp [hpy]
        have hyx : ¬ y = x := fun h => hux (hpy.trans h)
        simp only [List.map_cons, List.find?_cons]
        rw [hgu]
        simp only [hpu, if_neg hyx]
      · have hpu : (u.uid == y) = false := beq_eq_false_iff_ne.mpr hpy
        simp only [List.map_cons, List.find?_cons]
        rw [hgu]
        simp only [hpu]
        exact ih

theorem getDoc_updateDoc (db : Db) (x y : String) (f : UserDoc → UserDoc)
    (hf : ∀ u, (f u).uid = u.uid) :
    getDoc (updateDoc db x f) y =
      if y = x then (getDoc db y).map f else getDoc db y :=
  find?_uid_map_update db.users x y f hf

theorem processSuccessEvent_referrer (event : Json) (db : Db) (now : Nat) (amt : Int)
    (email rid : String) (u refU : UserDoc)
    (hemail : eventEmail event = some email)
    (hamt : eventAmount event = some amt)
    (hu : findUserByEmail db email = some u)
    (hrid : u.referrerUid = some rid)
    (hne : rid ≠ u.uid)
    (hrefU : getDoc db rid = some refU)
    (hfresh : (⟨u.uid, u.name, ((amt : ℚ) / 100) / 2⟩ : RefEntry) ∉ refU.referrals) :
    (processSuccessEvent event db now).status = 200 ∧
    getDoc (processSuccessEvent event db now).db rid =
      some { refU with
             balance := refU.balance + ((amt : ℚ) / 100) / 2,
             referrals := refU.referrals ++ [⟨u.uid, u.name, ((amt : ℚ) / 100) / 2⟩] } := by
  have hpaidf : ∀ v : UserDoc,
      ((fun x => { x with paid := true } : UserDoc → UserDoc) v).uid = v.uid :=
    fun v => rfl
  have hget2 :
      getDoc ⟨(updateDoc db u.uid (fun x => { x with paid := true })).users,
        (updateDoc db u.uid (fun x => { x with paid := true })).payments ++
          [⟨u.uid, (amt : ℚ) / 100, now, ((amt : ℚ) / 100) / 2⟩]⟩ rid = some refU := by
    show getDoc (updateDoc db u.uid (fun x => { x with paid := true })) rid = some refU
    rw [getDoc_updateDoc db u.uid rid _ hpaidf, if_neg hne, hrefU]
  simp only [processSuccessEvent, hemail, hamt, hu, hrid, hget2]
  constructor
  · trivial
  · rw [getDoc_updateDoc _ rid rid
      (fun x => { x with
        balance := refU.balance + ((amt : ℚ) / 100) / 2,
        referrals := arrayUnion x.referrals ⟨u.uid, u.name, ((amt : ℚ) / 100) / 2⟩ })
      (fun v => rfl), if_pos rfl, hget2]
    show some _ = some _
    simp only [arrayUnion]
    rw [if_neg hfresh]

/-- Claim C8 as amended: for a signature-verified successful-transaction
event whose email resolves to a user with a referrer document distinct from
the user, the handler adds half of the converted amount (amount over one
hundred, halved) to the referrer balance; the referral entry is appended
through FieldValue.arrayUnion, so exactly one entry is appended when no
equal entry is already present, while a duplicate of an existing entry is
not appended (the balance still increases). -/
theorem claim8_referrer_credit_amended
    (hmacHex : String → String → String) (sec : String) (event : Json) (db : Db)
    (now : Nat) (amt : Int) (email rid : String) (u refU : UserDoc)
    (hty : eventTypeOf event = some "transaction.successful")
    (hemail : eventEmail event = some email)
    (hamt : eventAmount event = some amt)
    (hu : findUserByEmail db email = some u)
    (hrid : u.referrerUid = some rid)
    (hne : rid ≠ u.uid)
    (hrefU : getDoc db rid = some refU)
    (hfresh : (⟨u.uid, u.name, ((amt : ℚ) / 100) / 2⟩ : RefEntry) ∉ refU.referrals) :
    (squadWebhookHandler (some sec) hmacHex
        (some (hmacHex sec (jsonStringify event))) event db now).status = 200 ∧
    getDoc (squadWebhookHandler (some sec) hmacHex
        (some (hmacHex sec (jsonStringify event))) event db now).db rid =
      some { refU with
             balance := refU.balance + ((amt : ℚ) / 100) / 2,
             referrals := refU.referrals ++ [⟨u.uid, u.name, ((amt : ℚ) / 100) / 2⟩] } := by
  have hred : squadWebhookHandler (some sec) hmacHex
      (some (hmacHex sec (jsonStringify event))) event db now =
      processSuccessEvent event db now := by
    simp [squadWebhookHandler, hty]
  rw [hred]
  exact processSuccessEvent_referrer event db now amt email rid u refU
    hemail hamt hu hrid hne hrefU hfresh

theorem processSuccessEvent_referrer_dup (event : Json) (db : Db) (now : Nat) (amt : Int)
    (email rid : String) (u refU : UserDoc)
    (hemail : eventEmail event = some email)
    (hamt : eventAmount event = some amt)
    (hu : findUserByEmail db email = some u)
    (hrid : u.referrerUid = some rid)
    (hne : rid ≠ u.uid)
    (hrefU : getDoc db rid = some refU)
    (hdup : (⟨u.uid, u.name, ((amt : ℚ) / 100) / 2⟩ : RefEntry) ∈ refU.referrals) :
    (processSuccessEvent event db now).status = 200 ∧
    getDoc (processSuccessEvent event db now).db rid =
      some { refU with balance := refU.balance + ((amt : ℚ) / 100) / 2 } := by
  have hpaidf : ∀ v : UserDoc,
      ((fun x => { x with paid := true } : UserDoc → UserDoc) v).uid = v.uid :=
    fun v => rfl
  have hget2 :
      getDoc ⟨(updateDoc db u.uid (fun x => { x with paid := true })).users,
        (updateDoc db u.uid (fun x => { x with paid := true })).payments ++
          [⟨u.uid, (amt : ℚ) / 100, now, ((amt : ℚ) / 100) / 2⟩]⟩ rid = some refU := by
    show getDoc (updateDoc db u.uid (fun x => { x with paid := true })) rid = some refU
    rw [getDoc_updateDoc db u.uid rid _ hpaidf, if_neg hne, hrefU]
  simp only [processSuccessEvent, hemail, hamt, hu, hrid, hget2]
  constructor
  · trivial
  · rw [getDoc_updateDoc _ rid rid
      (fun x => { x with
        balance := refU.balance + ((amt : ℚ) / 100) / 2,
        referrals := arrayUnion x.referrals ⟨u.uid, u.name, ((amt : ℚ) / 100) / 2⟩ })
      (fun v => rfl), if_pos rfl, hget2]
    show some _ = some _
    simp only [arrayUnion]
    rw [if_pos hdup]

/-- Counterexample to claim C8 as stated: when the referrer already holds
an identical referral entry (same referred uid, name and earned amount),
FieldValue.arrayUnion appends nothing, so the handler does not append
exactly one entry; the balance is still credited. -/
theorem claim8_counterexample :
    (squadWebhookHandler (some "K") (fun _ _ => "S") (some "S") sampleEvent
        sampleDbDup 7).status = 200 ∧
    (getDoc (squadWebhookHandler (some "K") (fun _ _ => "S") (some "S") sampleEvent
        sampleDbDup 7).db "r1").map (fun v => v.referrals) = some [⟨"u1", "U Name", 50⟩] ∧
    (getDoc (squadWebhookHandler (some "K") (fun _ _ => "S") (some "S") sampleEvent
        sampleDbDup 7).db "r1").map (fun v => v.balance) = some 150 := by
  have hdup : (⟨"u1", "U Name", (((10000 : ℤ) : ℚ) / 100) / 2⟩ : RefEntry)
      ∈ sampleReferrerDup.referrals := by
    simp [sampleReferrerDup]
    norm_num
  have hred : squadWebhookHandler (some "K") (fun _ _ => "S") (some "S") sampleEvent
      sampleDbDup 7 = processSuccessEvent sampleEvent sampleDbDup 7 := by
    simp [squadWebhookHandler,
      show eventTypeOf sampleEvent = some "transaction.successful" from rfl]
  have h := processSuccessEvent_referrer_dup sampleEvent sampleDbDup 7 10000 "a@b.c" "r1"
    sampleUser sampleReferrerDup rfl rfl rfl rfl (by decide) rfl hdup
  refine ⟨by rw [hred]; exact h.1, ?_, ?_⟩
  · rw [hred, h.2]
    simp [sampleReferrerDup]
  · rw [hred, h.2]
    simp [sampleReferrerDup]
    norm_num

/-- Witness for the amended claim C8: with a fresh referrer the balance is
credited by half the converted amount and exactly one entry is appended. -/
theorem claim8_referrer_credit_amended_witness :
    (squadWebhookHandler (some "K") (fun _ _ => "S") (some "S") sampleEvent
        sampleDbFresh 7).status = 200 ∧
    getDoc (squadWebhookHandler (some "K") (fun _ _ => "S") (some "S") sampleEvent
        sampleDbFresh 7).db "r1" =
      some { sampleReferrerFresh with
             balance := sampleReferrerFresh.balance + (((10000 : ℤ) : ℚ) / 100) / 2,
             referrals := sampleReferrerFresh.referrals ++
               [⟨"u1", "U Name", (((10000 : ℤ) : ℚ) / 100) / 2⟩] } :=
  claim8_referrer_credit_amended (fun _ _ => "S") "K" sampleEvent sampleDbFresh 7 10000
    "a@b.c" "r1" sampleUser sampleReferrerFresh rfl rfl rfl rfl rfl (by decide) rfl
    (by simp [sampleReferrerFresh])

end Server
